import Mathlib

/-!
Shallow embedding of the SmartShop catalog assistant
(repository `Smartshop-e-commerce-with-AI`, file `shop/views copy 3.py`,
together with `shop/services/gemini_client.py` and `shop/models.py`).

Texts are modelled as lists of characters (`Text`), Django `Decimal`
prices as rationals, and database tables as Lean lists.  The generative
AI backend is an input parameter: `generate_text`'s output is a `String`
argument and the recommendation JSON response is an `AIRecOutcome`
argument, mirroring the contract that the client returns empty text /
an empty mapping on any failure and never raises.
-/

namespace SmartShop

/-- Free text, modelled as a list of characters (Python `str`). -/
abbrev Text := List Char

/-- Python `str.lower()` restricted to the ASCII range used by the app. -/
def pyLower (t : Text) : Text := t.map Char.toLower

/-- The whitespace characters stripped by Python `str.strip()`. -/
def isPySpace (c : Char) : Bool :=
  c == ' ' || c == '\t' || c == '\n' || c == '\r' || c == '\x0b' || c == '\x0c'

/-- Python `str.strip()`: drop leading and trailing whitespace. -/
def pyStrip (t : Text) : Text :=
  ((t.dropWhile isPySpace).reverse.dropWhile isPySpace).reverse

/-- Python `needle in hay` on strings: substring occurrence
(the needle is a prefix of some suffix of the haystack). -/
def containsSub : Text → Text → Bool
  | [], needle => needle.isEmpty
  | c :: t, needle => needle.isPrefixOf (c :: t) || containsSub t needle

/-- `any(w in ql for w in ws)`. -/
def hasAny (ql : Text) (ws : List String) : Bool :=
  ws.any (fun w => containsSub ql w.toList)

/-- Value of a run of decimal digits (`int(...)` on the matched group). -/
def natOfDigits (ds : Text) : Nat :=
  ds.foldl (fun a c => 10 * a + (c.toNat - '0'.toNat)) 0

/-- `re.search(r"\$?\s*(\d+)", ql)`: the optional `$`/space prefix never
changes the captured group, so the first match captures the first maximal
digit run of the text; absence gives `None`. -/
def firstNat : Text → Option Nat
  | [] => none
  | c :: cs =>
    if c.isDigit then some (natOfDigits ((c :: cs).takeWhile Char.isDigit))
    else firstNat cs

/-- Helper for `lettersRuns`: accumulates the current (reversed) run. -/
def lettersRunsAux : Text → Text → List Text
  | [], acc => if acc.isEmpty then [] else [acc.reverse]
  | c :: cs, acc =>
    if c.isAlpha then lettersRunsAux cs (c :: acc)
    else if acc.isEmpty then lettersRunsAux cs []
    else acc.reverse :: lettersRunsAux cs []

/-- `re.findall(r"[a-zA-Z]+", ql)`: the maximal runs of ASCII letters. -/
def lettersRuns (t : Text) : List Text := lettersRunsAux t []

/-- `w in noise` membership of a token in a word set. -/
def memWords (ws : List String) (w : Text) : Bool :=
  ws.any (fun s => s.toList == w)

/-! ### Sorting

`order_by` clauses are modelled by insertion sort with a boolean
comparator.  Every `order_by` used by the views ends in the primary key,
so the comparator is a total order and the sorted list is the unique
sorted permutation of its input; insertion sort is chosen because it is
structurally recursive and therefore computes by kernel reduction. -/

/-- Insert `a` into `l` before the first element `b` with `le a b`. -/
def insertLe {α : Type} (le : α → α → Bool) (a : α) : List α → List α
  | [] => [a]
  | b :: bs => if le a b then a :: b :: bs else b :: insertLe le a bs

/-- Insertion sort by a boolean comparator. -/
def sortBy {α : Type} (le : α → α → Bool) : List α → List α
  | [] => []
  | a :: as => insertLe le a (sortBy le as)

/-! ### Intent parsing as inlined in `api_search` (lines 189-207) -/

def searchUnderWords : List String := ["below", "under", "<", "less than", "cheaper"]

def searchOverWords : List String :=
  ["above", "over", ">", "more than", "higher than", "expensive"]

def searchNoiseWords : List String :=
  ["product", "products", "gift", "below", "under", "less", "than",
   "above", "over", "more", "higher", "price", "prices",
   "cheap", "cheaper", "expensive", "dollar", "dollars"]

def searchAmount (ql : Text) : Option Nat := firstNat ql

def searchWantsUnder (ql : Text) : Bool := hasAny ql searchUnderWords

def searchWantsOver (ql : Text) : Bool := hasAny ql searchOverWords

/-- `api_search` keyword extraction: letter runs not in the noise set
(no minimum token length in this endpoint). -/
def searchKeywords (ql : Text) : List Text :=
  (lettersRuns ql).filter (fun w => !(memWords searchNoiseWords w))

/-! ### Intent parsing as inlined in `api_chat` (lines 311-334) -/

def chatUnderWords : List String :=
  ["below", "under", "<", "less than", "cheaper", "low price"]

def chatOverWords : List String :=
  ["above", "over", ">", "more than", "higher than", "at least"]

def chatHighWords : List String :=
  ["higher price", "high price", "expensive", "premium", "costly", "most expensive"]

def chatCategories : List String :=
  ["electronics", "fashion", "home", "office", "sports"]

def chatNoiseWords : List String :=
  ["suggest", "recommend", "show", "me", "please",
   "gift", "below", "under", "less", "than",
   "above", "over", "more", "higher", "price", "prices",
   "expensive", "premium", "costly", "most",
   "dollar", "dollars"]

def chatAmount (ql : Text) : Option Nat := firstNat ql

def chatWantsUnder (ql : Text) : Bool := hasAny ql chatUnderWords

def chatWantsOver (ql : Text) : Bool := hasAny ql chatOverWords

def chatWantsHigh (ql : Text) : Bool := hasAny ql chatHighWords

/-- `next((c for c in categories if c in ql), None)`. -/
def chatCategory (ql : Text) : Option Text :=
  (chatCategories.map String.toList).find? (fun c => containsSub ql c)

/-- `api_chat` keyword extraction: letter runs not in the noise set and
of length strictly greater than 2. -/
def chatKeywords (ql : Text) : List Text :=
  (lettersRuns ql).filter (fun w => !(memWords chatNoiseWords w) && decide (2 < w.length))

/-! ### Data model (`shop/models.py`) -/

/-- A catalog product.  `price` models the non-negative `Decimal` column as a
rational; the text columns are `Text`. -/
structure Product where
  id : Nat
  name : Text
  category : Text
  price : ℚ
  tags : Text
  short_description : Text
  ai_description : Text
  ai_review_summary : Text
deriving DecidableEq, Repr

/-- Django `field__icontains=w`: case-insensitive substring test.  Both sides
are lower-cased (the tokens fed in by the views are already lower case). -/
def icontains (field w : Text) : Bool := containsSub (pyLower field) (pyLower w)

/-! ### Ordering comparators (`order_by` clauses).

Each `order_by` in the views lists the primary key `id` (ascending or
descending) as final sort key, so the corresponding comparator is a total
lexicographic order and the sorted output is uniquely determined. -/

/-- `order_by("price", "id")`. -/
def byPriceAscIdAsc (a b : Product) : Bool :=
  decide (a.price < b.price) || (decide (a.price = b.price) && decide (a.id ≤ b.id))

/-- `order_by("-price", "id")`. -/
def byPriceDescIdAsc (a b : Product) : Bool :=
  decide (b.price < a.price) || (decide (a.price = b.price) && decide (a.id ≤ b.id))

/-- `order_by("-price", "-id")`. -/
def byPriceDescIdDesc (a b : Product) : Bool :=
  decide (b.price < a.price) || (decide (a.price = b.price) && decide (b.id ≤ a.id))

/-- `order_by("id")`. -/
def byIdAsc (a b : Product) : Bool := decide (a.id ≤ b.id)

/-- `order_by("-id")`. -/
def byIdDesc (a b : Product) : Bool := decide (b.id ≤ a.id)

/-! ### `api_search` (lines 179-232) -/

/-- Step 4 of `api_search`: price filter (`under` tested first). -/
def searchPriceFilter (catalog : List Product) (amount : Option Nat)
    (wu wo : Bool) : List Product :=
  match amount with
  | some n =>
    if wu then catalog.filter (fun p => decide (p.price ≤ (n : ℚ)))
    else if wo then catalog.filter (fun p => decide ((n : ℚ) ≤ p.price))
    else catalog
  | none => catalog

/-- Step 5 of `api_search`: OR of `icontains` over name, category, tags. -/
def searchKwPred (kws : List Text) (p : Product) : Bool :=
  kws.any (fun w => icontains p.name w || icontains p.category w || icontains p.tags w)

/-- Step 6 of `api_search`: the sort branch actually taken
(`wants_over` is tested first here, unlike the filter of step 4). -/
def searchRank (amount : Option Nat) (wu wo : Bool) (qs : List Product) : List Product :=
  match amount with
  | some _ =>
    if wo then sortBy byPriceAscIdAsc qs
    else if wu then sortBy byPriceDescIdAsc qs
    else sortBy byIdAsc qs
  | none => sortBy byIdAsc qs

/-- The product list returned by `api_search` for query `q` against the
catalog table: empty-query short-circuit, price filter, keyword filter,
then the sort of step 6 and `[:20]`. -/
def apiSearch (catalog : List Product) (q : Text) : List Product :=
  let qstr := pyStrip q
  if qstr.isEmpty then []
  else
    let ql := pyLower qstr
    let qs1 := searchPriceFilter catalog (searchAmount ql) (searchWantsUnder ql) (searchWantsOver ql)
    let qs2 := if (searchKeywords ql).isEmpty then qs1 else qs1.filter (searchKwPred (searchKeywords ql))
    (searchRank (searchAmount ql) (searchWantsUnder ql) (searchWantsOver ql) qs2).take 20

/-! ### `api_chat` (lines 305-409) -/

/-- Keyword OR-filter of `api_chat` (name, tags, category, short_description),
applied to the first 6 keywords. -/
def chatKwPred (kws : List Text) (p : Product) : Bool :=
  kws.any (fun w =>
    icontains p.name w || icontains p.tags w || icontains p.category w ||
    icontains p.short_description w)

/-- Steps 2-4 of `api_chat`: category filter, price filter
(`under` first, then `over or high`), keyword filter. -/
def chatFiltered (catalog : List Product) (ql : Text) : List Product :=
  let amount := chatAmount ql
  let wu := chatWantsUnder ql
  let wo := chatWantsOver ql
  let wh := chatWantsHigh ql
  let kws := chatKeywords ql
  let qs1 :=
    match chatCategory ql with
    | some c => catalog.filter (fun p => icontains p.category c || icontains p.tags c)
    | none => catalog
  let qs2 :=
    match amount with
    | some n =>
      if wu then qs1.filter (fun p => decide (p.price ≤ (n : ℚ)))
      else if wo || wh then qs1.filter (fun p => decide ((n : ℚ) ≤ p.price))
      else qs1
    | none => qs1
  if kws.isEmpty then qs2 else qs2.filter (chatKwPred (kws.take 6))

/-- Step 5 of `api_chat`: the sort branch actually taken. -/
def chatSort (ql : Text) (qs : List Product) : List Product :=
  let amount := chatAmount ql
  let wu := chatWantsUnder ql
  let wo := chatWantsOver ql
  let wh := chatWantsHigh ql
  if wh && amount.isNone then sortBy byPriceDescIdDesc qs
  else
    match amount with
    | some _ =>
      if wo || wh then sortBy byPriceDescIdDesc qs
      else if wu then sortBy byPriceAscIdAsc qs
      else sortBy byIdDesc qs
    | none => sortBy byIdDesc qs

/-- The title string chosen by step 5 of `api_chat`. -/
def chatTitle (ql : Text) : String :=
  let amount := chatAmount ql
  let wu := chatWantsUnder ql
  let wo := chatWantsOver ql
  let wh := chatWantsHigh ql
  if wh && amount.isNone then "Here are some higher-priced products from our catalog:"
  else
    match amount with
    | some n =>
      if wo || wh then "Here are some products from our catalog priced above $" ++ toString n ++ ":"
      else if wu then "Here are some products from our catalog under $" ++ toString n ++ ":"
      else "Here are some products from our catalog:"
    | none => "Here are some products from our catalog:"

/-- `products = list(qs[:5])`: the deterministic product list `api_chat`
computes for a (non-empty) message. -/
def apiChatProducts (catalog : List Product) (message : Text) : List Product :=
  let ql := pyLower (pyStrip message)
  (chatSort ql (chatFiltered catalog ql)).take 5

/-- Rendering of a `Decimal` price.  The exact decimal formatting of the
source is immaterial to every verified claim, so the rational is rendered
as `numerator/denominator`. -/
def priceText (q : ℚ) : String := toString q.num ++ "/" ++ toString q.den

/-- Step 6 of `api_chat`: the deterministic reply text. -/
def chatDeterministic (ql : Text) (products : List Product) : String :=
  let lines := chatTitle ql ::
    products.map (fun p =>
      "- " ++ String.mk p.name ++ " ($" ++ priceText p.price ++ ") — " ++
      String.mk p.category ++ " (View: /products/" ++ toString p.id ++ "/)")
  String.intercalate "\n" lines

/-- Outcome of one `api_chat` request: HTTP status, reply text, and whether
the branch taken invokes `generate_text` (the AI backend). -/
structure ChatResult where
  statusCode : Nat
  reply : String
  aiCalled : Bool
deriving DecidableEq, Repr

def chatRejection : String := "Please type a question first."

def chatGuidance : String :=
  "I couldn\x27t find matching products. Try: \x27most expensive products\x27, \x27over $50 electronics\x27, or \x27under $30 sports\x27."

def chatBusyNote : String :=
  "\n\n(Note: AI service busy, showing catalog-based suggestions.)"

/-- The whole `api_chat` view.  `aiText` is the text the AI backend would
return for the restyling prompt (`generate_text` never raises; empty text
on failure). -/
def apiChat (catalog : List Product) (message : Text) (aiText : String) : ChatResult :=
  if (pyStrip message).isEmpty then
    { statusCode := 400, reply := chatRejection, aiCalled := false }
  else
    let ql := pyLower (pyStrip message)
    let products := apiChatProducts catalog message
    if products.isEmpty then
      { statusCode := 200, reply := chatGuidance, aiCalled := false }
    else
      let ai := pyStrip aiText.toList
      { statusCode := 200,
        reply := if ai.isEmpty then chatDeterministic ql products ++ chatBusyNote
                 else String.mk ai,
        aiCalled := true }

/-! ### Recommendation engine (`_recommend_products_for_user`, lines 94-167) -/

/-- `Interaction.event_type` choices. -/
inductive EventType where
  | view
  | cart
  | purchase
  | search
deriving DecidableEq, Repr

/-- One row of the interaction log.  Rows arrive already ordered; the user
column is factored out (the engine receives the current user's last-50 slice
and, for the popularity fallback, the whole table). -/
structure Interaction where
  event_type : EventType
  productId : Option Nat
  query_text : Text
deriving DecidableEq, Repr

/-- One element of the JSON array under `"recommended_product_ids"`:
either a JSON integer or any other JSON value. -/
inductive JVal where
  | jint (n : Int)
  | jother
deriving DecidableEq, Repr

/-- Outcome of `generate_json(prompt)` followed by
`data.get("recommended_product_ids", [])`: `generate_json` returns `{}` when
the AI text is not valid JSON, and `.get` defaults to `[]` when the key is
absent. -/
inductive AIRecOutcome where
  | notJson
  | jsonMissingKey
  | jsonWithIds (ids : List JVal)
deriving DecidableEq, Repr

/-- `generate_json(prompt).get("recommended_product_ids", [])`. -/
def extractIds : AIRecOutcome → List JVal
  | .notJson => []
  | .jsonMissingKey => []
  | .jsonWithIds l => l

/-- `ids = [i for i in ids if isinstance(i, int)]`. -/
def validIds (l : List JVal) : List Int :=
  l.filterMap (fun v => match v with | .jint n => some n | .jother => none)

/-- First occurrences of a list of ids (SQL `GROUP BY product_id` groups). -/
def dedupFirst (l : List Nat) : List Nat :=
  l.foldl (fun acc x => if acc.contains x then acc else acc ++ [x]) []

/-- Comparator for `order_by("-c")` on `(product_id, count)` pairs. -/
def byCountDesc (a b : Nat × Nat) : Bool := decide (b.2 ≤ a.2)

/-- The no-history popularity query:
`filter(event_type="PURCHASE", product__isnull=False).values("product_id")
.annotate(c=Count("product_id")).order_by("-c")[:10]`, then ids filtered by
Python truthiness (`if x["product_id"]` drops `0`).  SQL leaves the order of
equal counts unspecified; a stable sort of the groups in first-purchase
order is one concrete refinement of it. -/
def popularIds (allInter : List Interaction) : List Nat :=
  let ps := allInter.filter (fun i => i.event_type == .purchase && i.productId.isSome)
  let pids := dedupFirst (ps.filterMap (fun i => i.productId))
  let counted := pids.map (fun pid =>
    (pid, (ps.filter (fun i => i.productId == some pid)).length))
  (((sortBy byCountDesc counted).take 10).map (fun x => x.1)).filter (fun i => !(i == 0))

/-- The id of a product as the JSON integer it is compared against. -/
def idInt (p : Product) : Int := (p.id : Int)

/-- The history branch's reordering: `found` is
`Product.objects.filter(id__in=ids)` (the whole table, filtered), the dict
`{p.id: p for p in found}` keeps the last product per id (hence the
`reverse` before `find?`), and `ordered` walks the AI's id list. -/
def historyOrdered (allProducts : List Product) (ids : List Int) : List Product :=
  ids.filterMap (fun i =>
    ((allProducts.filter (fun p => decide (idInt p ∈ ids))).reverse).find?
      (fun p => idInt p == i))

/-- `_recommend_products_for_user`.  `userInter` is the user's last-50
interaction slice (newest first), `allInter` the whole interaction table,
`allProducts` the product table in its storage order, and `ai` the parsed
AI response. -/
def recommendForUser (userInter allInter : List Interaction)
    (allProducts : List Product) (ai : AIRecOutcome) : List Product :=
  if userInter.isEmpty then
    let ids := popularIds allInter
    if ids.isEmpty then allProducts.take 10
    else allProducts.filter (fun p => decide (p.id ∈ ids))
  else
    let ordered := historyOrdered allProducts (validIds (extractIds ai))
    if ordered.isEmpty then allProducts.take 10 else ordered

/-- The 50 candidate products whose lines are embedded in the ranking
prompt: `list(Product.objects.all()[:50])`. -/
def recCandidates (allProducts : List Product) : List Product := allProducts.take 50

/-! ### Review summarizer (`basic_review_summary`, lines 17-56) -/

/-- One review row (`rating` integer column, `created_at` timestamp
modelled as a natural number). -/
structure Review where
  rating : Int
  text : Text
  created_at : Nat
deriving DecidableEq, Repr

def prosKeywords : List String :=
  ["great", "good", "perfect", "love", "value", "works", "quality"]

def consKeywords : List String :=
  ["bad", "poor", "disappointed", "durable", "worse", "problem", "okay"]

/-- `any(k in t for k in pros_keywords)` on the lower-cased review text. -/
def reviewMatches (ks : List String) (r : Review) : Bool :=
  ks.any (fun k => containsSub (pyLower r.text) k.toList)

def proPlaceholder : Text := "No strong pros detected from text.".toList

def consPlaceholder : Text := "No strong cons detected from text.".toList

/-- Round-half-even of a rational to an integer: the model of how CPython
renders `f"{avg:.1f}"` once scaled by ten (the float formatting of the
source rounds the IEEE double to the nearest tenth, ties to even). -/
def roundHalfEven (q : ℚ) : Int :=
  let f := ⌊q⌋
  if q - f < 1/2 then f
  else if (1 : ℚ)/2 < q - f then f + 1
  else if f % 2 = 0 then f else f + 1

/-- Structured content of the fallback summary computed by
`basic_review_summary` for a non-empty review list: exact average rating,
its one-decimal rendering scaled by ten, and the pros/cons lists. -/
structure BasicSummary where
  avg : ℚ
  avgTenths : Int
  pros : List Text
  cons : List Text
deriving DecidableEq, Repr

/-- `basic_review_summary` (the non-empty case; the caller rejects the
empty case first). -/
def basicReviewSummary (reviews : List Review) : BasicSummary :=
  let avg := ((reviews.map (fun r => r.rating)).sum : ℚ) / (reviews.length : ℚ)
  let pros0 := (reviews.filter (reviewMatches prosKeywords)).map (fun r => r.text)
  let cons0 := (reviews.filter (reviewMatches consKeywords)).map (fun r => r.text)
  { avg := avg
    avgTenths := roundHalfEven (10 * avg)
    pros := if pros0.isEmpty then [proPlaceholder] else pros0.take 3
    cons := if cons0.isEmpty then [consPlaceholder] else cons0.take 3 }

/-- Rendering of `avgTenths` as the `X.Y` shown in the summary line. -/
def tenthsText (n : Int) : String := toString (n / 10) ++ "." ++ toString (n % 10)

/-- The string built by `basic_review_summary`. -/
def renderBasicSummary (reviews : List Review) : String :=
  let s := basicReviewSummary reviews
  let lines :=
    ("Overall sentiment: average rating is " ++ tenthsText s.avgTenths ++
      "/5 from " ++ toString reviews.length ++ " review(s).") ::
    "" :: "Top pros:" :: s.pros.map (fun p => "- " ++ String.mk p) ++
    ("" :: "Top cons:" :: s.cons.map (fun c => "- " ++ String.mk c))
  String.intercalate "\n" lines

/-! ### `api_summarize_reviews` (lines 270-303) and
`api_generate_description` (lines 244-268) -/

/-- Comparator for `order_by("-created_at")`. -/
def byCreatedDesc (a b : Review) : Bool := decide (b.created_at ≤ a.created_at)

/-- `product.reviews.all().order_by("-created_at")[:20]`. -/
def recentReviews (reviews : List Review) : List Review :=
  (sortBy byCreatedDesc reviews).take 20

def quotaNote : String := "\n\n(Note: AI quota reached, showing basic summary.)"

/-- `api_summarize_reviews`: `reviews` is the product's review set and
`aiText` the output of `generate_text` for the summary prompt.  Returns
the HTTP status and the saved product row. -/
def apiSummarizeReviews (p : Product) (reviews : List Review)
    (aiText : String) : Nat × Product :=
  let rs := recentReviews reviews
  if rs.isEmpty then (400, p)
  else
    let text := if aiText = "" then renderBasicSummary rs ++ quotaNote else aiText
    (200, { p with ai_review_summary := text.toList })

/-- `api_generate_description`: `aiText` is the output of `generate_text`
for the description prompt.  Empty text yields a 502 error and no write;
otherwise `ai_description` is overwritten and saved. -/
def apiGenerateDescription (p : Product) (aiText : String) : Nat × Product :=
  if aiText = "" then (502, p)
  else (200, { p with ai_description := aiText.toList })

/-! ### Concrete fixtures used by witnesses and counterexamples -/

/-- A product whose text columns are all empty. -/
def plainProduct (i : Nat) (pr : ℚ) : Product :=
  { id := i, name := [], category := [], price := pr, tags := [],
    short_description := [], ai_description := [], ai_review_summary := [] }

/-- Two products tied at price 100 (ids 1, 2) and one at price 30 (id 3). -/
def tieCatalog : List Product :=
  [plainProduct 1 100, plainProduct 2 100, plainProduct 3 30]

/-- A catalog of `m` products with ids `1..m`, all priced 1. -/
def catalogOf (m : Nat) : List Product :=
  (List.range m).map (fun k => plainProduct (k + 1) 1)

/-- A single VIEW interaction, making a user's history non-empty. -/
def oneView : Interaction := { event_type := .view, productId := some 1, query_text := [] }

/-- The JSON integers `1..m`. -/
def jintRange (m : Nat) : List JVal :=
  (List.range m).map (fun k => .jint ((k : Int) + 1))

/-- Three sample reviews with distinct timestamps. -/
def sampleReviews : List Review :=
  [{ rating := 5, text := "great quality".toList, created_at := 3 },
   { rating := 4, text := "bad battery".toList, created_at := 2 },
   { rating := 3, text := "okay".toList, created_at := 1 }]

/-! ### Lemmas about `sortBy` -/

theorem insertLe_perm {α : Type} (le : α → α → Bool) (a : α) (l : List α) :
    (insertLe le a l).Perm (a :: l) := by
  induction l with
  | nil => simp [insertLe]
  | cons b bs ih =>
    simp only [insertLe]
    split
    · exact List.Perm.refl _
    · exact (ih.cons b).trans (List.Perm.swap a b bs)

theorem sortBy_perm {α : Type} (le : α → α → Bool) (l : List α) :
    (sortBy le l).Perm l := by
  induction l with
  | nil => simp [sortBy]
  | cons a as ih => exact (insertLe_perm le a (sortBy le as)).trans (ih.cons a)

theorem mem_sortBy {α : Type} {le : α → α → Bool} {a : α} {l : List α} :
    a ∈ sortBy le l ↔ a ∈ l :=
  (sortBy_perm le l).mem_iff

theorem length_sortBy {α : Type} (le : α → α → Bool) (l : List α) :
    (sortBy le l).length = l.length :=
  (sortBy_perm le l).length_eq

theorem pairwise_insertLe {α : Type} {le : α → α → Bool}
    (htrans : ∀ x y z : α, le x y = true → le y z = true → le x z = true)
    (htotal : ∀ x y : α, (le x y || le y x) = true) (a : α) :
    ∀ l : List α, l.Pairwise (fun x y => le x y = true) →
      (insertLe le a l).Pairwise (fun x y => le x y = true) := by
  intro l
  induction l with
  | nil => intro _; simp [insertLe]
  | cons b bs ih =>
    intro h
    rw [List.pairwise_cons] at h
    obtain ⟨hb, hbs⟩ := h
    simp only [insertLe]
    split
    case isTrue hab =>
      rw [List.pairwise_cons]
      refine ⟨?_, List.pairwise_cons.mpr ⟨hb, hbs⟩⟩
      intro x hx
      rcases List.mem_cons.mp hx with rfl | hx'
      · exact hab
      · exact htrans a b x hab (hb x hx')
    case isFalse hab =>
      have hba : le b a = true := by
        have h2 := htotal a b
        rw [Bool.or_eq_true] at h2
        rcases h2 with h2 | h2
        · exact absurd h2 hab
        · exact h2
      rw [List.pairwise_cons]
      refine ⟨?_, ih hbs⟩
      intro x hx
      rcases List.mem_cons.mp ((insertLe_perm le a bs).mem_iff.mp hx) with rfl | hx'
      · exact hba
      · exact hb x hx'

theorem pairwise_sortBy {α : Type} {le : α → α → Bool}
    (htrans : ∀ x y z : α, le x y = true → le y z = true → le x z = true)
    (htotal : ∀ x y : α, (le x y || le y x) = true) (l : List α) :
    (sortBy le l).Pairwise (fun x y => le x y = true) := by
  induction l with
  | nil => simp [sortBy]
  | cons a as ih => exact pairwise_insertLe htrans htotal a _ ih

/-! ### Order lemmas for the comparators -/

theorem byPriceAscIdAsc_iff (a b : Product) :
    byPriceAscIdAsc a b = true ↔
      (a.price < b.price ∨ (a.price = b.price ∧ a.id ≤ b.id)) := by
  simp [byPriceAscIdAsc]

theorem byPriceAscIdAsc_trans (a b c : Product)
    (hab : byPriceAscIdAsc a b = true) (hbc : byPriceAscIdAsc b c = true) :
    byPriceAscIdAsc a c = true := by
  rw [byPriceAscIdAsc_iff] at *
  rcases hab with h1 | ⟨h1, h1i⟩ <;> rcases hbc with h2 | ⟨h2, h2i⟩
  · exact Or.inl (lt_trans h1 h2)
  · exact Or.inl (lt_of_lt_of_le h1 (le_of_eq h2))
  · exact Or.inl (lt_of_le_of_lt (le_of_eq h1) h2)
  · exact Or.inr ⟨h1.trans h2, le_trans h1i h2i⟩

theorem byPriceAscIdAsc_total (a b : Product) :
    (byPriceAscIdAsc a b || byPriceAscIdAsc b a) = true := by
  rw [Bool.or_eq_true, byPriceAscIdAsc_iff, byPriceAscIdAsc_iff]
  rcases lt_trichotomy a.price b.price with h | h | h
  · exact Or.inl (Or.inl h)
  · rcases Nat.le_total a.id b.id with hi | hi
    · exact Or.inl (Or.inr ⟨h, hi⟩)
    · exact Or.inr (Or.inr ⟨h.symm, hi⟩)
  · exact Or.inr (Or.inl h)

theorem byPriceDescIdAsc_iff (a b : Product) :
    byPriceDescIdAsc a b = true ↔
      (b.price < a.price ∨ (a.price = b.price ∧ a.id ≤ b.id)) := by
  simp [byPriceDescIdAsc]

theorem byPriceDescIdAsc_trans (a b c : Product)
    (hab : byPriceDescIdAsc a b = true) (hbc : byPriceDescIdAsc b c = true) :
    byPriceDescIdAsc a c = true := by
  rw [byPriceDescIdAsc_iff] at *
  rcases hab with h1 | ⟨h1, h1i⟩ <;> rcases hbc with h2 | ⟨h2, h2i⟩
  · exact Or.inl (lt_trans h2 h1)
  · exact Or.inl (lt_of_le_of_lt (le_of_eq h2.symm) h1)
  · exact Or.inl (lt_of_lt_of_le h2 (le_of_eq h1.symm))
  · exact Or.inr ⟨h1.trans h2, le_trans h1i h2i⟩

theorem byPriceDescIdAsc_total (a b : Product) :
    (byPriceDescIdAsc a b || byPriceDescIdAsc b a) = true := by
  rw [Bool.or_eq_true, byPriceDescIdAsc_iff, byPriceDescIdAsc_iff]
  rcases lt_trichotomy a.price b.price with h | h | h
  · exact Or.inr (Or.inl h)
  · rcases Nat.le_total a.id b.id with hi | hi
    · exact Or.inl (Or.inr ⟨h, hi⟩)
    · exact Or.inr (Or.inr ⟨h.symm, hi⟩)
  · exact Or.inl (Or.inl h)

theorem byPriceDescIdDesc_iff (a b : Product) :
    byPriceDescIdDesc a b = true ↔
      (b.price < a.price ∨ (a.price = b.price ∧ b.id ≤ a.id)) := by
  simp [byPriceDescIdDesc]

theorem byPriceDescIdDesc_trans (a b c : Product)
    (hab : byPriceDescIdDesc a b = true) (hbc : byPriceDescIdDesc b c = true) :
    byPriceDescIdDesc a c = true := by
  rw [byPriceDescIdDesc_iff] at *
  rcases hab with h1 | ⟨h1, h1i⟩ <;> rcases hbc with h2 | ⟨h2, h2i⟩
  · exact Or.inl (lt_trans h2 h1)
  · exact Or.inl (lt_of_le_of_lt (le_of_eq h2.symm) h1)
  · exact Or.inl (lt_of_lt_of_le h2 (le_of_eq h1.symm))
  · exact Or.inr ⟨h1.trans h2, le_trans h2i h1i⟩

theorem byPriceDescIdDesc_total (a b : Product) :
    (byPriceDescIdDesc a b || byPriceDescIdDesc b a) = true := by
  rw [Bool.or_eq_true, byPriceDescIdDesc_iff, byPriceDescIdDesc_iff]
  rcases lt_trichotomy a.price b.price with h | h | h
  · exact Or.inr (Or.inl h)
  · rcases Nat.le_total a.id b.id with hi | hi
    · exact Or.inr (Or.inr ⟨h.symm, hi⟩)
    · exact Or.inl (Or.inr ⟨h, hi⟩)
  · exact Or.inl (Or.inl h)

/-- Sortedness of a truncated sort, for any transitive total comparator. -/
theorem pairwise_take_sortBy {le : Product → Product → Bool}
    (htrans : ∀ a b c : Product, le a b = true → le b c = true → le a c = true)
    (htotal : ∀ a b : Product, (le a b || le b a) = true)
    (l : List Product) (n : Nat) :
    ((sortBy le l).take n).Pairwise (fun a b => le a b = true) := by
  refine List.Pairwise.sublist (List.take_sublist n _) ?_
  exact pairwise_sortBy htrans htotal l

/-- Non-emptiness of a stripped query that parses to an amount. -/
theorem stripNonempty_of_amount {q : Text} {n : Nat}
    (hsa : firstNat (pyLower (pyStrip q)) = some n) :
    (pyStrip q).isEmpty = false := by
  cases h : pyStrip q with
  | nil => rw [h] at hsa; simp [pyLower, firstNat] at hsa
  | cons c t => simp [h]

/-- Every survivor of `api_chat`'s filters for an over-direction intent with
amount `n` has price at least `n`. -/
theorem chatFiltered_price_over (catalog : List Product) (ql : Text) (n : Nat) (p : Product)
    (ha : chatAmount ql = some n)
    (hu : chatWantsUnder ql = false) (ho : chatWantsOver ql = true)
    (hp : p ∈ chatFiltered catalog ql) : (n : ℚ) ≤ p.price := by
  simp only [chatFiltered, ha, hu, ho] at hp
  simp only [Bool.false_eq_true, Bool.true_or, if_false, if_true] at hp
  split at hp
  · exact of_decide_eq_true ((List.mem_filter.mp hp).2)
  · exact of_decide_eq_true ((List.mem_filter.mp (List.mem_filter.mp hp).1).2)

/-- Every survivor of `api_chat`'s filters for an under-direction intent with
amount `n` has price at most `n`. -/
theorem chatFiltered_price_under (catalog : List Product) (ql : Text) (n : Nat) (p : Product)
    (ha : chatAmount ql = some n) (hu : chatWantsUnder ql = true)
    (hp : p ∈ chatFiltered catalog ql) : p.price ≤ (n : ℚ) := by
  simp only [chatFiltered, ha, hu] at hp
  simp only [eq_self_iff_true, if_true] at hp
  split at hp
  · exact of_decide_eq_true ((List.mem_filter.mp hp).2)
  · exact of_decide_eq_true ((List.mem_filter.mp (List.mem_filter.mp hp).1).2)

/-- C1 (amended): for a query whose parsed intent carries an amount `n` and
the over direction (and not the under direction), every product returned by
`api_search` has price at least `n`, but `api_search` orders ASCENDING by
price (ascending id on ties) and returns at most 20 products, while
`api_chat` orders non-increasing by price with DESCENDING id on ties and
returns at most 5 products. -/
theorem overQueryBehavior (catalog : List Product) (q : Text) (n : Nat)
    (hsa : searchAmount (pyLower (pyStrip q)) = some n)
    (hso : searchWantsOver (pyLower (pyStrip q)) = true)
    (hsu : searchWantsUnder (pyLower (pyStrip q)) = false)
    (hca : chatAmount (pyLower (pyStrip q)) = some n)
    (hco : chatWantsOver (pyLower (pyStrip q)) = true)
    (hcu : chatWantsUnder (pyLower (pyStrip q)) = false) :
    (∀ p ∈ apiSearch catalog q, (n : ℚ) ≤ p.price) ∧
    (apiSearch catalog q).Pairwise
      (fun a b => a.price < b.price ∨ (a.price = b.price ∧ a.id ≤ b.id)) ∧
    (apiSearch catalog q).length ≤ 20 ∧
    (∀ p ∈ apiChatProducts catalog q, (n : ℚ) ≤ p.price) ∧
    (apiChatProducts catalog q).Pairwise
      (fun a b => b.price < a.price ∨ (a.price = b.price ∧ b.id ≤ a.id)) ∧
    (apiChatProducts catalog q).length ≤ 5 := by
  have hq : (pyStrip q).isEmpty = false := stripNonempty_of_amount hsa
  have hsearch : apiSearch catalog q =
      (sortBy byPriceAscIdAsc
        (if (searchKeywords (pyLower (pyStrip q))).isEmpty
         then catalog.filter (fun p => decide ((n : ℚ) ≤ p.price))
         else (catalog.filter (fun p => decide ((n : ℚ) ≤ p.price))).filter
           (searchKwPred (searchKeywords (pyLower (pyStrip q)))))).take 20 := by
    simp [apiSearch, hq, hsa, hso, hsu, searchRank, searchPriceFilter]
  have hchat : apiChatProducts catalog q =
      (sortBy byPriceDescIdDesc (chatFiltered catalog (pyLower (pyStrip q)))).take 5 := by
    simp [apiChatProducts, chatSort, hca, hco]
  refine ⟨?_, ?_, ?_, ?_, ?_, ?_⟩
  · intro p hp
    rw [hsearch] at hp
    have hp2 := List.mem_of_mem_take hp
    rw [mem_sortBy] at hp2
    split at hp2
    · exact of_decide_eq_true ((List.mem_filter.mp hp2).2)
    · exact of_decide_eq_true ((List.mem_filter.mp (List.mem_filter.mp hp2).1).2)
  · rw [hsearch]
    exact (pairwise_take_sortBy byPriceAscIdAsc_trans byPriceAscIdAsc_total _ 20).imp
      (fun h => (byPriceAscIdAsc_iff _ _).mp h)
  · rw [hsearch]; exact List.length_take_le 20 _
  · intro p hp
    rw [hchat] at hp
    have hp2 := List.mem_of_mem_take hp
    rw [mem_sortBy] at hp2
    exact chatFiltered_price_over catalog _ n p hca hcu hco hp2
  · rw [hchat]
    exact (pairwise_take_sortBy byPriceDescIdDesc_trans byPriceDescIdDesc_total _ 5).imp
      (fun h => (byPriceDescIdDesc_iff _ _).mp h)
  · rw [hchat]; exact List.length_take_le 5 _

/-- Witness for `overQueryBehavior` at the query "above $10" on `tieCatalog`. -/
theorem overQueryBehavior_witness :
    (∀ p ∈ apiSearch tieCatalog ("above $10".toList), (10 : ℚ) ≤ p.price) ∧
    (apiSearch tieCatalog ("above $10".toList)).Pairwise
      (fun a b => a.price < b.price ∨ (a.price = b.price ∧ a.id ≤ b.id)) ∧
    (apiSearch tieCatalog ("above $10".toList)).length ≤ 20 ∧
    (∀ p ∈ apiChatProducts tieCatalog ("above $10".toList), (10 : ℚ) ≤ p.price) ∧
    (apiChatProducts tieCatalog ("above $10".toList)).Pairwise
      (fun a b => b.price < a.price ∨ (a.price = b.price ∧ b.id ≤ a.id)) ∧
    (apiChatProducts tieCatalog ("above $10".toList)).length ≤ 5 :=
  overQueryBehavior tieCatalog ("above $10".toList) 10
    (by decide) (by decide) (by decide) (by decide) (by decide) (by decide)

/-- Counterexample to C1 as stated: at the query "above $10" (which parses
to amount 10 with the over direction) on `tieCatalog`, the search results
are ordered ASCENDING by price, and the chat results break the price tie by
DESCENDING id. -/
theorem overQueryOrdering_counterexample :
    searchAmount (pyLower (pyStrip ("above $10".toList))) = some 10 ∧
    searchWantsOver (pyLower (pyStrip ("above $10".toList))) = true ∧
    (apiSearch tieCatalog ("above $10".toList)).map Product.id = [3, 1, 2] ∧
    ¬ (apiSearch tieCatalog ("above $10".toList)).Pairwise
        (fun a b => b.price ≤ a.price) ∧
    (apiChatProducts tieCatalog ("above $10".toList)).map Product.id = [2, 1, 3] ∧
    ¬ (apiChatProducts tieCatalog ("above $10".toList)).Pairwise
        (fun a b => b.price < a.price ∨ (a.price = b.price ∧ a.id ≤ b.id)) := by
  decide

/-- C2 (amended): for a query whose parsed intent carries an amount `n` and
the under direction (and neither over nor high signals), every product
returned by `api_search` has price at most `n` and at most 20 are returned,
and every product returned by `api_chat` has price at most `n`, in
non-decreasing price order with ascending id ties, at most 5 of them —
but `api_search` orders DESCENDING by price (ascending id ties). -/
theorem underQueryBehavior (catalog : List Product) (q : Text) (n : Nat)
    (hsa : searchAmount (pyLower (pyStrip q)) = some n)
    (hsu : searchWantsUnder (pyLower (pyStrip q)) = true)
    (hso : searchWantsOver (pyLower (pyStrip q)) = false)
    (hca : chatAmount (pyLower (pyStrip q)) = some n)
    (hcu : chatWantsUnder (pyLower (pyStrip q)) = true)
    (hco : chatWantsOver (pyLower (pyStrip q)) = false)
    (hch : chatWantsHigh (pyLower (pyStrip q)) = false) :
    (∀ p ∈ apiSearch catalog q, p.price ≤ (n : ℚ)) ∧
    (apiSearch catalog q).Pairwise
      (fun a b => b.price < a.price ∨ (a.price = b.price ∧ a.id ≤ b.id)) ∧
    (apiSearch catalog q).length ≤ 20 ∧
    (∀ p ∈ apiChatProducts catalog q, p.price ≤ (n : ℚ)) ∧
    (apiChatProducts catalog q).Pairwise
      (fun a b => a.price < b.price ∨ (a.price = b.price ∧ a.id ≤ b.id)) ∧
    (apiChatProducts catalog q).length ≤ 5 := by
  have hq : (pyStrip q).isEmpty = false := stripNonempty_of_amount hsa
  have hsearch : apiSearch catalog q =
      (sortBy byPriceDescIdAsc
        (if (searchKeywords (pyLower (pyStrip q))).isEmpty
         then catalog.filter (fun p => decide (p.price ≤ (n : ℚ)))
         else (catalog.filter (fun p => decide (p.price ≤ (n : ℚ)))).filter
           (searchKwPred (searchKeywords (pyLower (pyStrip q)))))).take 20 := by
    simp [apiSearch, hq, hsa, hso, hsu, searchRank, searchPriceFilter]
  have hchat : apiChatProducts catalog q =
      (sortBy byPriceAscIdAsc (chatFiltered catalog (pyLower (pyStrip q)))).take 5 := by
    simp [apiChatProducts, chatSort, hca, hco, hcu, hch]
  refine ⟨?_, ?_, ?_, ?_, ?_, ?_⟩
  · intro p hp
    rw [hsearch] at hp
    have hp2 := List.mem_of_mem_take hp
    rw [mem_sortBy] at hp2
    split at hp2
    · exact of_decide_eq_true ((List.mem_filter.mp hp2).2)
    · exact of_decide_eq_true ((List.mem_filter.mp (List.mem_filter.mp hp2).1).2)
  · rw [hsearch]
    exact (pairwise_take_sortBy byPriceDescIdAsc_trans byPriceDescIdAsc_total _ 20).imp
      (fun h => (byPriceDescIdAsc_iff _ _).mp h)
  · rw [hsearch]; exact List.length_take_le 20 _
  · intro p hp
    rw [hchat] at hp
    have hp2 := List.mem_of_mem_take hp
    rw [mem_sortBy] at hp2
    exact chatFiltered_price_under catalog _ n p hca hcu hp2
  · rw [hchat]
    exact (pairwise_take_sortBy byPriceAscIdAsc_trans byPriceAscIdAsc_total _ 5).imp
      (fun h => (byPriceAscIdAsc_iff _ _).mp h)
  · rw [hchat]; exact List.length_take_le 5 _

/-- Witness for `underQueryBehavior` at the query "under $100" on `tieCatalog`. -/
theorem underQueryBehavior_witness :
    (∀ p ∈ apiSearch tieCatalog ("under $100".toList), p.price ≤ (100 : ℚ)) ∧
    (apiSearch tieCatalog ("under $100".toList)).Pairwise
      (fun a b => b.price < a.price ∨ (a.price = b.price ∧ a.id ≤ b.id)) ∧
    (apiSearch tieCatalog ("under $100".toList)).length ≤ 20 ∧
    (∀ p ∈ apiChatProducts tieCatalog ("under $100".toList), p.price ≤ (100 : ℚ)) ∧
    (apiChatProducts tieCatalog ("under $100".toList)).Pairwise
      (fun a b => a.price < b.price ∨ (a.price = b.price ∧ a.id ≤ b.id)) ∧
    (apiChatProducts tieCatalog ("under $100".toList)).length ≤ 5 :=
  underQueryBehavior tieCatalog ("under $100".toList) 100
    (by decide) (by decide) (by decide) (by decide) (by decide) (by decide) (by decide)

/-- Counterexample to C2 as stated: at the query "under $100" (which parses
to amount 100 with the under direction) on `tieCatalog`, the search results
are ordered DESCENDING by price, not non-decreasing. -/
theorem underQueryOrdering_counterexample :
    searchAmount (pyLower (pyStrip ("under $100".toList))) = some 100 ∧
    searchWantsUnder (pyLower (pyStrip ("under $100".toList))) = true ∧
    (apiSearch tieCatalog ("under $100".toList)).map Product.id = [1, 2, 3] ∧
    ¬ (apiSearch tieCatalog ("under $100".toList)).Pairwise
        (fun a b => a.price ≤ b.price) := by
  decide

/-- C5 (amended): the two endpoints extract the amount identically (same
first-number scan), and their direction tests agree on every text that
avoids the divergent synonyms ("low price" is an under-synonym only in
chat; "expensive" is an over-synonym only in search, "at least" only in
chat); the keyword extraction, however, is computed by divergent inline
copies and differs on some texts. -/
theorem parserAgreement (t : Text) :
    searchAmount t = chatAmount t ∧
    (containsSub t ("low price".toList) = false →
      searchWantsUnder t = chatWantsUnder t) ∧
    (containsSub t ("expensive".toList) = false →
      containsSub t ("at least".toList) = false →
      searchWantsOver t = chatWantsOver t) := by
  refine ⟨rfl, ?_, ?_⟩
  · intro h
    simp at h
    simp [searchWantsUnder, chatWantsUnder, hasAny, searchUnderWords, chatUnderWords, h]
  · intro h1 h2
    simp at h1 h2
    simp [searchWantsOver, chatWantsOver, hasAny, searchOverWords, chatOverWords, h1, h2]

/-- Witness for `parserAgreement` at the text "hello". -/
theorem parserAgreement_witness :
    searchAmount ("hello".toList) = chatAmount ("hello".toList) ∧
    searchWantsUnder ("hello".toList) = chatWantsUnder ("hello".toList) ∧
    searchWantsOver ("hello".toList) = chatWantsOver ("hello".toList) :=
  ⟨(parserAgreement ("hello".toList)).1,
   (parserAgreement ("hello".toList)).2.1 (by decide),
   (parserAgreement ("hello".toList)).2.2 (by decide) (by decide)⟩

/-- Counterexample to C5 as stated: the endpoints do not share one parser.
On "me", search keeps the keyword "me" while chat drops it (chat's noise
set and minimum token length differ); on "expensive", search classifies
the over direction while chat does not (it only sets its separate
wants-high signal). -/
theorem parserDivergence_counterexample :
    searchKeywords (pyLower (pyStrip ("me".toList))) = ["me".toList] ∧
    chatKeywords (pyLower (pyStrip ("me".toList))) = [] ∧
    searchWantsOver (pyLower (pyStrip ("expensive".toList))) = true ∧
    chatWantsOver (pyLower (pyStrip ("expensive".toList))) = false ∧
    chatWantsHigh (pyLower (pyStrip ("expensive".toList))) = true := by
  decide

/-- C6: `api_chat` never calls the AI backend when it answers with the
rejection or the guidance reply: an empty or whitespace-only message yields
the fixed rejection (status 400) with no AI call for any catalog and any
AI text, and a non-empty message whose deterministic retrieval yields zero
products yields the fixed guidance reply with no AI call. -/
theorem chatNoAiOnRejectionOrGuidance (catalog : List Product) (msg : Text)
    (aiText : String) :
    ((pyStrip msg).isEmpty = true →
      apiChat catalog msg aiText =
        { statusCode := 400, reply := chatRejection, aiCalled := false }) ∧
    ((pyStrip msg).isEmpty = false → apiChatProducts catalog msg = [] →
      apiChat catalog msg aiText =
        { statusCode := 200, reply := chatGuidance, aiCalled := false }) := by
  constructor
  · intro h
    simp [apiChat, h]
  · intro h hp
    simp [apiChat, h, hp]

/-- Witness for `chatNoAiOnRejectionOrGuidance`: a whitespace-only message
on any catalog, and a message with no matches on the empty catalog. -/
theorem chatNoAiOnRejectionOrGuidance_witness :
    apiChat tieCatalog ("   ".toList) "anything" =
      { statusCode := 400, reply := chatRejection, aiCalled := false } ∧
    apiChat [] ("hello".toList) "anything" =
      { statusCode := 200, reply := chatGuidance, aiCalled := false } :=
  ⟨(chatNoAiOnRejectionOrGuidance tieCatalog ("   ".toList) "anything").1 (by decide),
   (chatNoAiOnRejectionOrGuidance [] ("hello".toList) "anything").2 (by decide) (by decide)⟩

/-- C8: when the AI returns empty text for a description request, the
endpoint reports status 502 and the product row is unchanged; when it
returns non-empty text, the endpoint reports 200 and `ai_description`
becomes exactly that text while every other column is unchanged. -/
theorem generateDescriptionBehavior (p : Product) (aiText : String) :
    (aiText = "" → apiGenerateDescription p aiText = (502, p)) ∧
    (aiText ≠ "" →
      (apiGenerateDescription p aiText).1 = 200 ∧
      (apiGenerateDescription p aiText).2.ai_description = aiText.toList ∧
      (apiGenerateDescription p aiText).2.id = p.id ∧
      (apiGenerateDescription p aiText).2.name = p.name ∧
      (apiGenerateDescription p aiText).2.category = p.category ∧
      (apiGenerateDescription p aiText).2.price = p.price ∧
      (apiGenerateDescription p aiText).2.tags = p.tags ∧
      (apiGenerateDescription p aiText).2.short_description = p.short_description ∧
      (apiGenerateDescription p aiText).2.ai_review_summary = p.ai_review_summary) := by
  constructor
  · intro h
    simp [apiGenerateDescription, h]
  · intro h
    simp [apiGenerateDescription, h]

/-- Witness for `generateDescriptionBehavior` on a sample product. -/
theorem generateDescriptionBehavior_witness :
    apiGenerateDescription (plainProduct 1 1) "" = (502, plainProduct 1 1) ∧
    (apiGenerateDescription (plainProduct 1 1) "nice").2.ai_description = "nice".toList ∧
    (apiGenerateDescription (plainProduct 1 1) "nice").1 = 200 :=
  ⟨(generateDescriptionBehavior (plainProduct 1 1) "").1 rfl,
   ((generateDescriptionBehavior (plainProduct 1 1) "nice").2 (by decide)).2.1,
   ((generateDescriptionBehavior (plainProduct 1 1) "nice").2 (by decide)).1⟩

/-- C3 (amended): the no-history branches and the AI-failure fallback
return at most 10 products, and in the history branch the number of
returned products equals the number of usable ids from the AI response,
so the recommendation length is bounded by
`max 10 (number of integer ids in the response)` — the history branch
itself imposes no cap of 10. -/
theorem recommendLengthBound (userInter allInter : List Interaction)
    (allProducts : List Product) (ai : AIRecOutcome)
    (hnd : (allProducts.map Product.id).Nodup) :
    (recommendForUser userInter allInter allProducts ai).length ≤
      max 10 (validIds (extractIds ai)).length := by
  simp only [recommendForUser]
  split
  · split
    · exact le_trans (List.length_take_le 10 _) (le_max_left _ _)
    · have h10 : (popularIds allInter).length ≤ 10 := by
        simp only [popularIds]
        refine le_trans (List.length_filter_le _ _) ?_
        rw [List.length_map]
        exact List.length_take_le 10 _
      have hnodup : ((allProducts.filter
          (fun p => decide (p.id ∈ popularIds allInter))).map Product.id).Nodup :=
        List.Nodup.sublist (List.Sublist.map Product.id (List.filter_sublist _)) hnd
      have hss : ((allProducts.filter
          (fun p => decide (p.id ∈ popularIds allInter))).map Product.id) ⊆
          popularIds allInter := by
        intro i hi
        rcases List.mem_map.mp hi with ⟨p, hp, rfl⟩
        exact of_decide_eq_true ((List.mem_filter.mp hp).2)
      have hle := (List.subperm_of_subset hnodup hss).length_le
      rw [List.length_map] at hle
      exact le_trans (le_trans hle h10) (le_max_left _ _)
  · split
    · exact le_trans (List.length_take_le 10 _) (le_max_left _ _)
    · refine le_trans ?_ (le_max_right 10 _)
      simp only [historyOrdered]
      exact List.length_filterMap_le _ _

/-- Witness for `recommendLengthBound` on a 2-product catalog. -/
theorem recommendLengthBound_witness :
    (recommendForUser [] [] (catalogOf 2) .notJson).length ≤
      max 10 (validIds (extractIds .notJson)).length :=
  recommendLengthBound [] [] (catalogOf 2) .notJson (by decide)

/-- Counterexample to C3 as stated: with an 11-product catalog, a
non-empty history, and an AI response listing all 11 ids, the
recommendation returns 11 products, more than 10. -/
theorem recommendOverTen_counterexample :
    (recommendForUser [oneView] [] (catalogOf 11)
      (.jsonWithIds (jintRange 11))).length = 11 ∧
    ¬ ((recommendForUser [oneView] [] (catalogOf 11)
      (.jsonWithIds (jintRange 11))).length ≤ 10) := by
  decide

/-- The history reordering, characterised: walking any sub-sequence `ids2`
of the AI id list, the products produced are exactly the ids present in
the product table, in the AI's order, and all come from the table. -/
theorem historyOrdered_spec (allProducts : List Product) (ids : List Int) :
    ∀ ids2 : List Int, (∀ i ∈ ids2, i ∈ ids) →
      ((ids2.filterMap (fun i =>
          ((allProducts.filter (fun p => decide (idInt p ∈ ids))).reverse).find?
            (fun p => idInt p == i))).map idInt =
        ids2.filter (fun i => decide (i ∈ allProducts.map idInt))) ∧
      (∀ p ∈ ids2.filterMap (fun i =>
          ((allProducts.filter (fun p => decide (idInt p ∈ ids))).reverse).find?
            (fun p => idInt p == i)), p ∈ allProducts) := by
  intro ids2
  induction ids2 with
  | nil => exact fun _ => ⟨rfl, by simp⟩
  | cons i is ih =>
    intro h
    have hmem : i ∈ ids := h i (List.mem_cons_self i is)
    obtain ⟨ihmap, ihmem⟩ := ih (fun j hj => h j (List.mem_cons_of_mem i hj))
    by_cases hpres : i ∈ allProducts.map idInt
    · obtain ⟨p0, hp0, hid0⟩ := List.mem_map.mp hpres
      have hex : (((allProducts.filter (fun p => decide (idInt p ∈ ids))).reverse).find?
          (fun p => idInt p == i)).isSome := by
        rw [List.find?_isSome]
        refine ⟨p0, ?_, ?_⟩
        · rw [List.mem_reverse]
          exact List.mem_filter.mpr ⟨hp0, decide_eq_true (hid0 ▸ hmem)⟩
        · exact beq_iff_eq.mpr hid0
      obtain ⟨q, hq⟩ := Option.isSome_iff_exists.mp hex
      have hqb := List.find?_some hq
      have hqid : idInt q = i := by
        rw [← beq_iff_eq (a := idInt q) (b := i)]
        exact hqb
      have hqmem : q ∈ allProducts := by
        have h3 := List.mem_of_find?_eq_some hq
        rw [List.mem_reverse] at h3
        exact (List.mem_filter.mp h3).1
      constructor
      · simp only [List.filterMap_cons, hq, List.map_cons, List.filter_cons,
          decide_eq_true hpres, if_true]
        rw [hqid, ihmap]
      · intro p hp
        simp only [List.filterMap_cons, hq] at hp
        rcases List.mem_cons.mp hp with rfl | hp2
        · exact hqmem
        · exact ihmem p hp2
    · have hnone : (((allProducts.filter (fun p => decide (idInt p ∈ ids))).reverse).find?
          (fun p => idInt p == i)) = none := by
        rw [List.find?_eq_none]
        intro x hx hbeq
        rw [List.mem_reverse] at hx
        have hxmem : x ∈ allProducts := (List.mem_filter.mp hx).1
        have hxi : idInt x = i := beq_iff_eq.mp hbeq
        exact hpres (hxi ▸ List.mem_map_of_mem idInt hxmem)
      constructor
      · simp only [List.filterMap_cons, hnone, List.filter_cons,
          decide_eq_false hpres, Bool.false_eq_true, if_false]
        exact ihmap
      · intro p hp
        simp only [List.filterMap_cons, hnone] at hp
        exact ihmem p hp

/-- The two conclusions of `historyOrdered_spec` at the full id list. -/
theorem historyOrdered_map_and_mem (allProducts : List Product) (ids : List Int) :
    (historyOrdered allProducts ids).map idInt =
      ids.filter (fun i => decide (i ∈ allProducts.map idInt)) ∧
    ∀ p ∈ historyOrdered allProducts ids, p ∈ allProducts :=
  ⟨(historyOrdered_spec allProducts ids ids (fun _ hi => hi)).1,
   (historyOrdered_spec allProducts ids ids (fun _ hi => hi)).2⟩

/-- C4 (amended): in the history branch, a non-JSON response or a response
lacking the key is treated as an empty id list (fallback to the first 10
table products); the ids are filtered to integers and those not present in
the PRODUCT TABLE are discarded (the 50-candidate slice is only used to
build the prompt); the surviving products are returned in exactly the AI's
id order, and all come from the table. -/
theorem recommendHistoryResponse (userInter allInter : List Interaction)
    (allProducts : List Product) (l : List JVal)
    (hui : userInter.isEmpty = false) :
    recommendForUser userInter allInter allProducts .notJson = allProducts.take 10 ∧
    recommendForUser userInter allInter allProducts .jsonMissingKey = allProducts.take 10 ∧
    ((validIds l).filter (fun i => decide (i ∈ allProducts.map idInt)) = [] →
      recommendForUser userInter allInter allProducts (.jsonWithIds l) =
        allProducts.take 10) ∧
    ((validIds l).filter (fun i => decide (i ∈ allProducts.map idInt)) ≠ [] →
      (recommendForUser userInter allInter allProducts (.jsonWithIds l)).map idInt =
        (validIds l).filter (fun i => decide (i ∈ allProducts.map idInt)) ∧
      ∀ p ∈ recommendForUser userInter allInter allProducts (.jsonWithIds l),
        p ∈ allProducts) := by
  obtain ⟨hmap, hmem⟩ := historyOrdered_map_and_mem allProducts (validIds l)
  have hred : recommendForUser userInter allInter allProducts (.jsonWithIds l) =
      if (historyOrdered allProducts (validIds l)).isEmpty then allProducts.take 10
      else historyOrdered allProducts (validIds l) := by
    simp [recommendForUser, hui, extractIds]
  refine ⟨?_, ?_, ?_, ?_⟩
  · simp [recommendForUser, hui, extractIds, validIds, historyOrdered]
  · simp [recommendForUser, hui, extractIds, validIds, historyOrdered]
  · intro hkeep
    have hnil : historyOrdered allProducts (validIds l) = [] :=
      List.map_eq_nil_iff.mp (by rw [hmap, hkeep])
    rw [hred, hnil]
    simp
  · intro hkeep
    have hnonnil : historyOrdered allProducts (validIds l) ≠ [] := by
      intro hx
      apply hkeep
      rw [← hmap, hx]
      rfl
    have hne : (historyOrdered allProducts (validIds l)).isEmpty = false := by
      cases h : (historyOrdered allProducts (validIds l)).isEmpty with
      | false => rfl
      | true => exact absurd (List.isEmpty_iff.mp h) hnonnil
    rw [hred, hne]
    simp only [Bool.false_eq_true, if_false]
    exact ⟨hmap, hmem⟩

/-- Witness for `recommendHistoryResponse` on a 2-product catalog with the
AI response `[2, "x", 1, 5]`: the non-integer is dropped, 5 is absent from
the table and dropped, and the result follows the AI order `[2, 1]`. -/
theorem recommendHistoryResponse_witness :
    recommendForUser [oneView] [] (catalogOf 2) .notJson = (catalogOf 2).take 10 ∧
    (recommendForUser [oneView] [] (catalogOf 2)
      (.jsonWithIds [.jint 2, .jother, .jint 1, .jint 5])).map idInt = [2, 1] := by
  have h := recommendHistoryResponse [oneView] [] (catalogOf 2)
    [.jint 2, .jother, .jint 1, .jint 5] (by decide)
  refine ⟨h.1, ?_⟩
  have h4 := h.2.2.2 (by decide)
  rw [h4.1]
  decide

/-- Counterexample to C4 as stated: with a 51-product table and the AI
response `[51]`, the id 51 is NOT among the 50 candidates embedded in the
prompt, yet the product with id 51 is returned — validation is against the
whole table, not the candidate slice. -/
theorem recommendCandidateValidation_counterexample :
    (recommendForUser [oneView] [] (catalogOf 51)
      (.jsonWithIds [.jint 51])).map Product.id = [51] ∧
    (∀ p ∈ recCandidates (catalogOf 51), p.id ≠ 51) := by
  decide

/-- Counting through `filterMap` with a lookup that hits `p` exactly at
`pid`. -/
theorem count_filterMap_lookup (f : Int → Option Product) (p : Product) (pid : Int)
    (hf : f pid = some p) (honly : ∀ i q, f i = some q → q = p → i = pid) :
    ∀ ids : List Int, (ids.filterMap f).count p = ids.count pid := by
  intro ids
  induction ids with
  | nil => rfl
  | cons i is ih =>
    by_cases hi : i = pid
    · subst hi
      simp only [List.filterMap_cons, hf, List.count_cons_self, ih]
    · cases hfi : f i with
      | none =>
        simp only [List.filterMap_cons, hfi]
        rw [List.count_cons_of_ne (Ne.symm hi)]
        exact ih
      | some q =>
        have hqp : q ≠ p := fun hq => hi (honly i q hfi hq)
        simp only [List.filterMap_cons, hfi]
        rw [List.count_cons_of_ne (Ne.symm hqp), List.count_cons_of_ne (Ne.symm hi)]
        exact ih

/-- C9: the recommendation engine performs no deduplication: if the AI
response contains a table id `k > 0` times among its integer entries, the
returned list contains the corresponding product exactly `k` times
(product ids assumed unique, as the primary key guarantees). -/
theorem recommendDuplicateIds (userInter allInter : List Interaction)
    (allProducts : List Product) (l : List JVal) (p : Product)
    (hui : userInter.isEmpty = false)
    (hnd : (allProducts.map Product.id).Nodup)
    (hp : p ∈ allProducts)
    (hpos : 0 < (validIds l).count (idInt p)) :
    (recommendForUser userInter allInter allProducts (.jsonWithIds l)).count p =
      (validIds l).count (idInt p) := by
  have hpfound : p ∈ (allProducts.filter
      (fun r => decide (idInt r ∈ validIds l))).reverse := by
    rw [List.mem_reverse]
    exact List.mem_filter.mpr ⟨hp, decide_eq_true (List.count_pos_iff.mp hpos)⟩
  have hfp : ((allProducts.filter (fun r => decide (idInt r ∈ validIds l))).reverse).find?
      (fun r => idInt r == idInt p) = some p := by
    have hex : (((allProducts.filter (fun r => decide (idInt r ∈ validIds l))).reverse).find?
        (fun r => idInt r == idInt p)).isSome := by
      rw [List.find?_isSome]
      exact ⟨p, hpfound, beq_self_eq_true _⟩
    obtain ⟨q, hq⟩ := Option.isSome_iff_exists.mp hex
    have hqb := List.find?_some hq
    have hqid : idInt q = idInt p := by
      rw [← beq_iff_eq (a := idInt q) (b := idInt p)]
      exact hqb
    have hqmem : q ∈ allProducts := by
      have h3 := List.mem_of_find?_eq_some hq
      rw [List.mem_reverse] at h3
      exact (List.mem_filter.mp h3).1
    have hqp : q = p := by
      apply List.inj_on_of_nodup_map hnd hqmem hp
      simp only [idInt] at hqid
      exact Nat.cast_injective hqid
    rw [hqp] at hq
    exact hq
  have honly : ∀ i q,
      ((allProducts.filter (fun r => decide (idInt r ∈ validIds l))).reverse).find?
        (fun r => idInt r == i) = some q → q = p → i = idInt p := by
    intro i q hq hqp
    subst hqp
    have hqb := List.find?_some hq
    have : idInt q = i := by
      rw [← beq_iff_eq (a := idInt q) (b := i)]
      exact hqb
    exact this.symm
  have hcount : (historyOrdered allProducts (validIds l)).count p =
      (validIds l).count (idInt p) :=
    count_filterMap_lookup _ p (idInt p) hfp honly (validIds l)
  have hmemp : p ∈ historyOrdered allProducts (validIds l) :=
    List.count_pos_iff.mp (by rw [hcount]; exact hpos)
  have hne : (historyOrdered allProducts (validIds l)).isEmpty = false := by
    cases h : (historyOrdered allProducts (validIds l)).isEmpty with
    | false => rfl
    | true =>
      rw [List.isEmpty_iff.mp h] at hmemp
      cases hmemp
  have hred : recommendForUser userInter allInter allProducts (.jsonWithIds l) =
      historyOrdered allProducts (validIds l) := by
    simp [recommendForUser, hui, extractIds, hne]
  rw [hred]
  exact hcount

/-- Witness for `recommendDuplicateIds`: the response `[1, 1, 2]` on a
2-product catalog yields product 1 twice. -/
theorem recommendDuplicateIds_witness :
    (recommendForUser [oneView] [] (catalogOf 2)
      (.jsonWithIds [.jint 1, .jint 1, .jint 2])).count (plainProduct 1 1) =
      (validIds [.jint 1, .jint 1, .jint 2]).count (idInt (plainProduct 1 1)) :=
  recommendDuplicateIds [oneView] [] (catalogOf 2) [.jint 1, .jint 1, .jint 2]
    (plainProduct 1 1) (by decide) (by decide) (by decide) (by decide)

/-- Round-half-even never strays more than one half from its argument. -/
theorem roundHalfEven_close (q : ℚ) : |(roundHalfEven q : ℚ) - q| ≤ 1 / 2 := by
  simp only [roundHalfEven]
  have h1 : ((⌊q⌋ : ℚ)) ≤ q := Int.floor_le q
  have h2 : q < ⌊q⌋ + 1 := Int.lt_floor_add_one q
  split
  case isTrue h3 =>
    rw [abs_le]
    constructor <;> linarith
  case isFalse h3 =>
    split
    case isTrue h4 =>
      rw [abs_le]
      push_cast
      constructor <;> linarith
    case isFalse h4 =>
      have heq : q - ⌊q⌋ = 1 / 2 := le_antisymm (not_lt.mp h4) (not_lt.mp h3)
      split <;> (rw [abs_le]; push_cast; constructor <;> linarith)

/-- C7: for every non-empty review list, the fallback summary's average is
the arithmetic mean of all ratings, its one-decimal rendering (scaled by
ten) is within 1/20 of that mean, the pros and cons lists have at most 3
entries each, and a list with no keyword matches is replaced by the
literal placeholder sentence. -/
theorem basicSummaryBehavior (reviews : List Review) (h : reviews ≠ []) :
    (basicReviewSummary reviews).avg =
      ((reviews.map (fun r => r.rating)).sum : ℚ) / (reviews.length : ℚ) ∧
    |((basicReviewSummary reviews).avgTenths : ℚ) / 10 -
      ((reviews.map (fun r => r.rating)).sum : ℚ) / (reviews.length : ℚ)| ≤ 1 / 20 ∧
    (basicReviewSummary reviews).pros.length ≤ 3 ∧
    (basicReviewSummary reviews).cons.length ≤ 3 ∧
    (reviews.filter (reviewMatches prosKeywords) = [] →
      (basicReviewSummary reviews).pros = [proPlaceholder]) ∧
    (reviews.filter (reviewMatches consKeywords) = [] →
      (basicReviewSummary reviews).cons = [consPlaceholder]) := by
  refine ⟨rfl, ?_, ?_, ?_, ?_, ?_⟩
  · have hclose := roundHalfEven_close
      (10 * (((reviews.map (fun r => r.rating)).sum : ℚ) / (reviews.length : ℚ)))
    have heq : ((basicReviewSummary reviews).avgTenths : ℚ) / 10 -
        ((reviews.map (fun r => r.rating)).sum : ℚ) / (reviews.length : ℚ) =
        (((basicReviewSummary reviews).avgTenths : ℚ) -
          10 * (((reviews.map (fun r => r.rating)).sum : ℚ) / (reviews.length : ℚ))) / 10 := by
      ring
    rw [heq, abs_div, abs_of_pos (by norm_num : (0 : ℚ) < 10)]
    have havg : (basicReviewSummary reviews).avgTenths =
        roundHalfEven (10 * (((reviews.map (fun r => r.rating)).sum : ℚ) /
          (reviews.length : ℚ))) := rfl
    rw [havg]
    linarith
  · simp only [basicReviewSummary]
    split
    · simp
    · exact le_trans (List.length_take_le 3 _) (by norm_num)
  · simp only [basicReviewSummary]
    split
    · simp
    · exact le_trans (List.length_take_le 3 _) (by norm_num)
  · intro hfilter
    simp [basicReviewSummary, hfilter]
  · intro hfilter
    simp [basicReviewSummary, hfilter]

/-- Witness for `basicSummaryBehavior` on three sample reviews. -/
theorem basicSummaryBehavior_witness :
    (basicReviewSummary sampleReviews).avg =
      ((sampleReviews.map (fun r => r.rating)).sum : ℚ) / (sampleReviews.length : ℚ) ∧
    |((basicReviewSummary sampleReviews).avgTenths : ℚ) / 10 -
      ((sampleReviews.map (fun r => r.rating)).sum : ℚ) / (sampleReviews.length : ℚ)| ≤ 1 / 20 ∧
    (basicReviewSummary sampleReviews).pros.length ≤ 3 ∧
    (basicReviewSummary sampleReviews).cons.length ≤ 3 ∧
    (sampleReviews.filter (reviewMatches prosKeywords) = [] →
      (basicReviewSummary sampleReviews).pros = [proPlaceholder]) ∧
    (sampleReviews.filter (reviewMatches consKeywords) = [] →
      (basicReviewSummary sampleReviews).cons = [consPlaceholder]) :=
  basicSummaryBehavior sampleReviews (by decide)

theorem byCreatedDesc_trans (a b c : Review)
    (hab : byCreatedDesc a b = true) (hbc : byCreatedDesc b c = true) :
    byCreatedDesc a c = true := by
  simp only [byCreatedDesc, decide_eq_true_eq] at *
  omega

theorem byCreatedDesc_total (a b : Review) :
    (byCreatedDesc a b || byCreatedDesc b a) = true := by
  simp only [byCreatedDesc, Bool.or_eq_true, decide_eq_true_eq]
  omega

/-- C10: for every product with at least one review, `api_summarize_reviews`
answers 200 and overwrites `ai_review_summary`: with empty AI text the
rendered deterministic fallback plus the fixed quota notice is persisted,
otherwise the AI text itself; the persisted value never depends on the
field's previous content; and the summary input is exactly the 20 most
recent reviews — at most 20, all drawn from the review set, and any review
left out has a `created_at` at most that of every review kept. -/
theorem summarizeReviewsBehavior (p : Product) (reviews : List Review)
    (aiText : String) (h : reviews ≠ []) :
    (apiSummarizeReviews p reviews aiText).1 = 200 ∧
    (apiSummarizeReviews p reviews aiText).2.ai_review_summary =
      (if aiText = "" then renderBasicSummary (recentReviews reviews) ++ quotaNote
       else aiText).toList ∧
    (∀ s : Text,
      (apiSummarizeReviews { p with ai_review_summary := s }
        reviews aiText).2.ai_review_summary =
      (apiSummarizeReviews p reviews aiText).2.ai_review_summary) ∧
    (recentReviews reviews).length = min 20 reviews.length ∧
    (∀ a ∈ recentReviews reviews, a ∈ reviews) ∧
    (∀ b ∈ reviews, b ∉ recentReviews reviews →
      ∀ a ∈ recentReviews reviews, b.created_at ≤ a.created_at) := by
  have hlen : (recentReviews reviews).length = min 20 reviews.length := by
    simp [recentReviews, List.length_take, length_sortBy]
  have hne : (recentReviews reviews).isEmpty = false := by
    cases h2 : (recentReviews reviews).isEmpty with
    | false => rfl
    | true =>
      exfalso
      have h3 : (recentReviews reviews).length = 0 := by
        rw [List.isEmpty_iff.mp h2]
        rfl
      rw [hlen] at h3
      rcases Nat.min_eq_zero_iff.mp h3 with h4 | h4
      · omega
      · exact h (List.length_eq_zero.mp h4)
  refine ⟨?_, ?_, ?_, hlen, ?_, ?_⟩
  · simp [apiSummarizeReviews, hne]
  · simp [apiSummarizeReviews, hne]
  · intro s
    simp [apiSummarizeReviews, hne]
  · intro a ha
    have := List.mem_of_mem_take (by simpa [recentReviews] using ha)
    exact mem_sortBy.mp this
  · intro b hb hbnot a ha
    have hpw : (sortBy byCreatedDesc reviews).Pairwise
        (fun x y => byCreatedDesc x y = true) :=
      pairwise_sortBy byCreatedDesc_trans byCreatedDesc_total reviews
    have hsplit := List.take_append_drop 20 (sortBy byCreatedDesc reviews)
    have hpw2 : (((sortBy byCreatedDesc reviews).take 20) ++
        ((sortBy byCreatedDesc reviews).drop 20)).Pairwise
        (fun x y => byCreatedDesc x y = true) := by
      rw [hsplit]
      exact hpw
    have hcross := (List.pairwise_append.mp hpw2).2.2
    have hbmem : b ∈ (sortBy byCreatedDesc reviews) := mem_sortBy.mpr hb
    have hbdrop : b ∈ (sortBy byCreatedDesc reviews).drop 20 := by
      rw [← hsplit] at hbmem
      rcases List.mem_append.mp hbmem with h5 | h5
      · exact absurd (by simpa [recentReviews] using h5) hbnot
      · exact h5
    have ha2 : a ∈ (sortBy byCreatedDesc reviews).take 20 := by
      simpa [recentReviews] using ha
    have := hcross a ha2 b hbdrop
    simpa [byCreatedDesc] using this

/-- Witness for `summarizeReviewsBehavior` with empty AI text on three
sample reviews. -/
theorem summarizeReviewsBehavior_witness :
    (apiSummarizeReviews (plainProduct 1 1) sampleReviews "").1 = 200 ∧
    (apiSummarizeReviews (plainProduct 1 1) sampleReviews "").2.ai_review_summary =
      (if "" = "" then renderBasicSummary (recentReviews sampleReviews) ++ quotaNote
       else "").toList ∧
    (∀ s : Text,
      (apiSummarizeReviews { plainProduct 1 1 with ai_review_summary := s }
        sampleReviews "").2.ai_review_summary =
      (apiSummarizeReviews (plainProduct 1 1) sampleReviews "").2.ai_review_summary) ∧
    (recentReviews sampleReviews).length = min 20 sampleReviews.length ∧
    (∀ a ∈ recentReviews sampleReviews, a ∈ sampleReviews) ∧
    (∀ b ∈ sampleReviews, b ∉ recentReviews sampleReviews →
      ∀ a ∈ recentReviews sampleReviews, b.created_at ≤ a.created_at) :=
  summarizeReviewsBehavior (plainProduct 1 1) sampleReviews "" (by decide)

end SmartShop
